import Mathlib

/-!
Verification development for the Eye-of-Riyadh events scraper
(`scraper.py`).  The Python source is shallowly embedded: each pure
function of the script becomes a Lean definition with the same name
(where Lean allows it), datetimes are modelled explicitly, and every
fallible step returns `Option`.

Modelling conventions, fixed once and used throughout:

* `pytz.timezone("Asia/Riyadh")` is a fixed-offset (+03:00) zone with no
  daylight-saving transitions for all modern dates, so
  `TZ.localize(naive)` and `aware.astimezone(TZ)` are wall-clock
  identities whenever the wall-clock fields already describe Riyadh
  time.  The modelled fragment of the date grammar contains no
  timezone designators, hence every datetime in the model is the
  Riyadh wall clock and the localize/astimezone calls of the source
  are identities.  Microseconds are not modelled (no claim observes
  them); seconds are.
* Python `datetime` objects are `PyDatetime` records
  (year/month/day/hour/minute/second); `date()` projections are
  `PyDate`.  `date.toordinal` is the proleptic-Gregorian ordinal used
  by CPython (0001-01-01 has ordinal 1); Python's total order and
  `timedelta` arithmetic on dates coincide with ordinal arithmetic.
* `dateutil.parser.parse(s, dayfirst=True, default=d)` is an external
  library; it is embedded on the sub-grammar the script's claims
  exercise: whitespace-separated tokens that are a 1- or 2-digit
  number up to 31 (a day), a 4-digit number (a year), an English
  month name or its 3-letter abbreviation (case-insensitive), or an
  `HH:MM` time.  Fields found in the text replace the corresponding
  fields of `default` (dateutil's documented default-substitution);
  the merged result is validated exactly as `datetime.replace` would.
  Anything outside this fragment (2-digit years, AM/PM, weekday
  names, punctuation, timezone designators, seconds) parses to
  `none`, the model of a raised `ParserError`.
-/

/-! ### Python string helpers -/

/-- The ASCII whitespace characters matched by Python's `\s` (the
script only ever feeds ASCII-ish scraped text through `re.sub(r"\s+", " ", ...)`). -/
def pyIsSpace (c : Char) : Bool :=
  c = ' ' || c = '\t' || c = '\n' || c = '\r' || c = '\x0b' || c = '\x0c'

/-- Core of `re.sub(r"\s+", " ", s)`: every maximal run of whitespace
becomes a single space.  `prev` records whether the previous character
was part of a whitespace run. -/
def collapseWsAux : Bool → List Char → List Char
  | _, [] => []
  | prev, c :: rest =>
    if pyIsSpace c then
      if prev then collapseWsAux true rest
      else ' ' :: collapseWsAux true rest
    else c :: collapseWsAux false rest

/-- `str.strip()` after whitespace collapsing: drop leading and trailing
spaces. -/
def stripSpaces (l : List Char) : List Char :=
  ((l.dropWhile (· = ' ')).reverse.dropWhile (· = ' ')).reverse

/-- `normalize_whitespace` of `scraper.py` (line 80): collapse interior
whitespace runs to single spaces and strip the ends.  The Python
version guards a `None` argument with `s or ""`; at every call site of
the model the argument is already a string. -/
def normalize_whitespace (s : String) : String :=
  (stripSpaces (collapseWsAux false s.data)).asString

/-- Characters of the character class `[–\-to]` in the range-split
regex of `parse_dt` (line 90), compiled with `re.I`: en-dash, hyphen
and the *letters* `t` and `o` in either case (the pattern is a
character class, not the alternation `–|-|to`). -/
def rangeDelimChar (c : Char) : Bool :=
  c = '–' || c = '-' || c = 't' || c = 'T' || c = 'o' || c = 'O'

/-- Length of the maximal prefix of `l` drawn from the delimiter
character class. -/
def delimRunLen : List Char → Nat
  | [] => 0
  | c :: rest => if rangeDelimChar c then delimRunLen rest + 1 else 0

/-- One optional whitespace character (`\s?`): number of characters it
consumes at the head of `l` (greedy, 0 or 1). -/
def optWsLen : List Char → Nat
  | [] => 0
  | c :: _ => if pyIsSpace c then 1 else 0

/-- Attempt to match `\s?[–\-to]+\s?` at the head of `l`
(case-insensitively), returning the number of characters consumed.
The leading `\s?` is greedy but backtracks if the mandatory character
run cannot follow; whitespace itself is not in the class, so after
backtracking a match starting at a whitespace character is impossible. -/
def rangeDelimMatch (l : List Char) : Option Nat :=
  match l with
  | [] => none
  | c :: rest =>
    if pyIsSpace c then
      match delimRunLen rest with
      | 0 => none
      | n + 1 => some (1 + (n + 1) + optWsLen (rest.drop (n + 1)))
    else
      match delimRunLen l with
      | 0 => none
      | n + 1 => some ((n + 1) + optWsLen (l.drop (n + 1)))

/-- Scanner for `re.split`: walk the character list left to right; at
the first position where the delimiter pattern matches, emit the
accumulated segment and restart after the match.  `fuel` bounds the
recursion (every step consumes at least one character, so
`fuel = l.length + 1` suffices); the fuel-exhausted branch is
unreachable at the call site. -/
def splitGo : Nat → List Char → List Char → List String
  | 0, l, acc => [(acc.reverse ++ l).asString]
  | fuel + 1, l, acc =>
    match l with
    | [] => [acc.reverse.asString]
    | c :: rest =>
      match rangeDelimMatch l with
      | some n => acc.reverse.asString :: splitGo fuel (l.drop n) []
      | none => splitGo fuel rest (c :: acc)

/-- `re.split(r"\s?[–\-to]+\s?", text, flags=re.I)` (line 90 of
`scraper.py`).  Like Python's `re.split`, always returns at least one
segment, and segments may be empty. -/
def pySplitRange (s : String) : List String :=
  splitGo (s.data.length + 1) s.data []

/-- Python truthiness on an optional string: `None` and `""` are falsy.
`pyTruthy x` is `some s` exactly when `x` holds a non-empty string. -/
def pyTruthy : Option String → Option String
  | none => none
  | some s => if s = "" then none else some s

/-- Python's `sep.join(parts)`: concatenation with `sep` *between*
elements (no trailing separator). -/
def pyJoin (sep : String) : List String → String
  | [] => ""
  | [x] => x
  | x :: y :: rest => x ++ sep ++ pyJoin sep (y :: rest)

/-- Whether `pat` is a prefix of `l` (for substring replacement). -/
def startsWithPat : List Char → List Char → Bool
  | [], _ => true
  | _ :: _, [] => false
  | p :: ps, c :: cs => p = c && startsWithPat ps cs

/-- Core of Python's `str.replace`: scan left to right, replacing each
non-overlapping occurrence of `pat` (non-empty at both call sites) by
`rep`.  Fuel-bounded as in `splitGo`. -/
def pyReplaceGo (pat rep : List Char) : Nat → List Char → List Char
  | 0, l => l
  | _ + 1, [] => []
  | fuel + 1, l@(c :: rest) =>
    if pat ≠ [] && startsWithPat pat l then
      rep ++ pyReplaceGo pat rep fuel (l.drop pat.length)
    else
      c :: pyReplaceGo pat rep fuel rest

/-- Python `s.replace(pat, rep)` for non-empty `pat`. -/
def pyReplace (s pat rep : String) : String :=
  (pyReplaceGo pat.data rep.data (s.data.length + 1) s.data).asString

/-! ### Proleptic Gregorian calendar (Python `datetime`/`date`) -/

/-- Gregorian leap-year predicate. -/
def isLeap (y : Int) : Bool :=
  y % 4 = 0 && (y % 100 ≠ 0 || y % 400 = 0)

/-- Days in a month of the proleptic Gregorian calendar (months 1–12;
other month numbers are invalid and get 0 days so that validation
rejects them). -/
def daysInMonth (y : Int) (m : Nat) : Nat :=
  if m = 1 then 31 else if m = 2 then (if isLeap y then 29 else 28)
  else if m = 3 then 31 else if m = 4 then 30 else if m = 5 then 31
  else if m = 6 then 30 else if m = 7 then 31 else if m = 8 then 31
  else if m = 9 then 30 else if m = 10 then 31 else if m = 11 then 30
  else if m = 12 then 31 else 0

/-- A Python `datetime.date`. -/
structure PyDate where
  year : Int
  month : Nat
  day : Nat
deriving DecidableEq

/-- A Python `datetime.datetime` (naive wall clock; see the header
comment for why timezone awareness is the identity in this model). -/
structure PyDatetime where
  year : Int
  month : Nat
  day : Nat
  hour : Nat
  minute : Nat
  second : Nat
deriving DecidableEq

/-- `datetime.date()`. -/
def PyDatetime.date (dt : PyDatetime) : PyDate :=
  ⟨dt.year, dt.month, dt.day⟩

/-- The field validation performed by the `datetime` constructor (and
hence by `datetime.replace`): Python's `MINYEAR = 1`, `MAXYEAR = 9999`. -/
def PyDatetime.valid (dt : PyDatetime) : Bool :=
  1 ≤ dt.year && dt.year ≤ 9999 &&
  1 ≤ dt.month && dt.month ≤ 12 &&
  1 ≤ dt.day && dt.day ≤ daysInMonth dt.year dt.month &&
  dt.hour ≤ 23 && dt.minute ≤ 59 && dt.second ≤ 59

/-- Constructing a datetime raises `ValueError` on out-of-range fields;
in the model an invalid combination is `none`. -/
def mkValid (dt : PyDatetime) : Option PyDatetime :=
  if dt.valid then some dt else none

/-- `date.toordinal()`: days since 0001-01-00 in the proleptic
Gregorian calendar, so 0001-01-01 ↦ 1 and 1970-01-01 ↦ 719163
(the civil-from-days algorithm, specialised to years ≥ 1, where all
intermediate quantities are non-negative and `/`, `%` agree with C
truncation). -/
def PyDate.toordinal (d : PyDate) : Int :=
  let y : Int := if d.month ≤ 2 then d.year - 1 else d.year
  let era : Int := y / 400
  let yoe : Int := y - era * 400
  let mp : Int := ((d.month : Int) + 9) % 12
  let doy : Int := (153 * mp + 2) / 5 + (d.day : Int) - 1
  let doe : Int := yoe * 365 + yoe / 4 - yoe / 100 + doy
  era * 146097 + doe - 305

/-- `date.fromordinal(n)`: inverse of `toordinal` (days-to-civil
algorithm; for ordinals of years ≥ 1 every shifted quantity is
non-negative). -/
def PyDate.fromordinal (n : Int) : PyDate :=
  let z : Int := n + 305
  let era : Int := z / 146097
  let doe : Int := z - era * 146097
  let yoe : Int := (doe - doe / 1460 + doe / 36524 - doe / 146096) / 365
  let y : Int := yoe + era * 400
  let doy : Int := doe - (365 * yoe + yoe / 4 - yoe / 100)
  let mp : Int := (5 * doy + 2) / 153
  let d : Int := doy - (153 * mp + 2) / 5 + 1
  let m : Int := if mp < 10 then mp + 3 else mp - 9
  ⟨if m ≤ 2 then y + 1 else y, m.toNat, d.toNat⟩

/-- `datetime + timedelta(hours=h)` (also defined for negative `h`):
Python's timedelta arithmetic, carried out on the ordinal/second-of-day
representation with floor division, exactly as `divmod` does. -/
def PyDatetime.addHours (dt : PyDatetime) (h : Int) : PyDatetime :=
  let total : Int := (dt.hour : Int) * 3600 + (dt.minute : Int) * 60 + (dt.second : Int) + h * 3600
  let dshift : Int := total / 86400
  let rem : Nat := (total % 86400).toNat
  let d : PyDate := PyDate.fromordinal (dt.date.toordinal + dshift)
  ⟨d.year, d.month, d.day, rem / 3600, rem % 3600 / 60, rem % 60⟩

/-! ### The modelled `dateutil.parser.parse` fragment -/

/-- Numeric value of a digit list (already checked to be all digits). -/
def natOfDigits : List Char → Nat → Nat
  | [], acc => acc
  | c :: rest, acc => natOfDigits rest (acc * 10 + (c.toNat - '0'.toNat))

/-- Month numbers of the English month names and their 3-letter
abbreviations, compared case-insensitively (dateutil's
`parserinfo.MONTHS`). -/
def monthFromName (s : String) : Option Nat :=
  let t := (s.data.map Char.toLower).asString
  if t = "jan" || t = "january" then some 1
  else if t = "feb" || t = "february" then some 2
  else if t = "mar" || t = "march" then some 3
  else if t = "apr" || t = "april" then some 4
  else if t = "may" then some 5
  else if t = "jun" || t = "june" then some 6
  else if t = "jul" || t = "july" then some 7
  else if t = "aug" || t = "august" then some 8
  else if t = "sep" || t = "september" then some 9
  else if t = "oct" || t = "october" then some 10
  else if t = "nov" || t = "november" then some 11
  else if t = "dec" || t = "december" then some 12
  else none

/-- One token of the modelled date grammar. -/
inductive DTok where
  | day (n : Nat)
  | year (n : Nat)
  | mon (m : Nat)
  | time (h min : Nat)
  | bad
deriving DecidableEq

/-- Split a character list at its first `:`;  `none` when there is no
colon. -/
def breakColon : List Char → Option (List Char × List Char)
  | [] => none
  | c :: rest =>
    if c = ':' then some ([], rest)
    else
      match breakColon rest with
      | none => none
      | some (a, b) => some (c :: a, b)

/-- Classify one whitespace-delimited token.  Numbers of 1–2 digits up
to 31 are day candidates, 4-digit numbers are years, `HH:MM` groups are
times, month names are months; every other shape (2-digit years,
seconds, AM/PM, weekday names, punctuation, …) is outside the
modelled fragment and poisons the parse. -/
def classifyTok (s : String) : DTok :=
  let cs := s.data
  if cs ≠ [] && cs.all Char.isDigit then
    let n := natOfDigits cs 0
    if cs.length ≤ 2 then (if n ≤ 31 then .day n else .bad)
    else if cs.length = 4 then .year n
    else .bad
  else
    match breakColon cs with
    | some (h, m) =>
      if h ≠ [] && h.all Char.isDigit && h.length ≤ 2 &&
         m.length = 2 && m.all Char.isDigit then
        .time (natOfDigits h 0) (natOfDigits m 0)
      else .bad
    | none =>
      match monthFromName s with
      | some m => .mon m
      | none => .bad

/-- The fields recovered from the text, each optional (dateutil's
internal `_result`). -/
structure PartialDT where
  year : Option Nat := none
  month : Option Nat := none
  day : Option Nat := none
  hour : Option Nat := none
  minute : Option Nat := none
deriving DecidableEq

/-- Resolve the classified tokens into found fields, with
`dayfirst=True` (both call sites of the script pass it).  At most one
month name, one 4-digit year and one time group may appear; of the
small numbers, a single one is the day, and a pair is day-then-month
(day first).  A parse with no recognised component at all fails, as
does any `bad` token. -/
def resolveToks (toks : List DTok) : Option PartialDT :=
  if toks.contains .bad then none
  else
    let days := toks.filterMap fun t => match t with | .day n => some n | _ => none
    let years := toks.filterMap fun t => match t with | .year n => some n | _ => none
    let mons := toks.filterMap fun t => match t with | .mon m => some m | _ => none
    let times := toks.filterMap fun t => match t with | .time h m => some (h, m) | _ => none
    if 1 < years.length || 1 < mons.length || 1 < times.length then none
    else
      let base : PartialDT :=
        { year := years.head?, month := mons.head?,
          hour := (times.head?).map Prod.fst, minute := (times.head?).map Prod.snd }
      match mons.head?, days with
      | _, [] =>
        if years = [] && mons = [] && times = [] then none else some base
      | some _, [d] => some { base with day := d }
      | some _, _ :: _ :: _ => none
      | none, [d] => some { base with day := d }
      | none, [d, mo] => some { base with day := d, month := mo }
      | none, _ :: _ :: _ :: _ => none

/-- Merge the found fields over the `default` datetime: dateutil's
documented default substitution (each found field replaces the
default's; everything else, seconds included, is taken from the
default). -/
def mergeDefault (default : PyDatetime) (p : PartialDT) : PyDatetime :=
  { year := (p.year.map Int.ofNat).getD default.year
    month := p.month.getD default.month
    day := p.day.getD default.day
    hour := p.hour.getD default.hour
    minute := p.minute.getD default.minute
    second := default.second }

/-- Accumulating word splitter: break a character list into the
maximal space-free words, dropping the (empty) gaps — the token stream
dateutil's lexer produces from a whitespace-normalized string. -/
def wordsAux : List Char → List Char → List String
  | [], acc => if acc = [] then [] else [acc.reverse.asString]
  | c :: rest, acc =>
    if c = ' ' then
      if acc = [] then wordsAux rest []
      else acc.reverse.asString :: wordsAux rest []
    else wordsAux rest (c :: acc)

/-- The whitespace-separated words of `s`. -/
def pyWords (s : String) : List String :=
  wordsAux s.data []

/-- The modelled `dateutil.parser.parse(s, dayfirst=True, default=d)`:
tokenize on whitespace, classify, resolve, merge over the default and
validate; any failure is `none` (a raised exception in Python). -/
def pyParse (s : String) (default : PyDatetime) : Option PyDatetime :=
  match resolveToks ((pyWords s).map classifyTok) with
  | none => none
  | some p => mkValid (mergeDefault default p)

/-! ### `parse_dt` (lines 83–111 of `scraper.py`) -/

/-- The `default` of the first `dateparser.parse` call (line 92):
`TZ.localize(datetime.now()).replace(hour=9, minute=0, second=0,
microsecond=0)` — today at 09:00 Riyadh wall clock. -/
def defaultStart (now : PyDatetime) : PyDatetime :=
  { now with hour := 9, minute := 0, second := 0 }

/-- Lines 91–103 of `parse_dt`: split the normalized text and parse
the first segment against the 09:00 default; when a second segment
exists, parse it with default `start or TZ.localize(datetime.now())`.
`TZ.localize`/`astimezone(TZ)` are identities in the model (see
header). -/
def parseSegments (now : PyDatetime) (text : Option String) :
    Option PyDatetime × Option PyDatetime :=
  match text with
  | none => (none, none)
  | some t =>
    if t = "" then (none, none)
    else
      let t := normalize_whitespace t
      let m := pySplitRange t
      let start := pyParse (m.headD "") (defaultStart now)
      let endv :=
        if 1 < m.length then pyParse (m.getD 1 "") (start.getD now)
        else none
      (start, endv)

/-- Lines 105–107: a start parsed at exactly `hh:mm = 00:00` gets the
default business-day opening time. -/
def fixStart (dt : PyDatetime) : PyDatetime :=
  if dt.hour = 0 && dt.minute = 0 then { dt with hour := 9, minute := 0 } else dt

/-- Lines 108–110: an end parsed at exactly `hh:mm = 00:00` gets the
default business-day closing time. -/
def fixEnd (dt : PyDatetime) : PyDatetime :=
  if dt.hour = 0 && dt.minute = 0 then { dt with hour := 18, minute := 0 } else dt

/-- `parse_dt(text)` of `scraper.py` (lines 83–111), with the current
datetime passed explicitly.  Returns the optional start/end pair; the
Python function catches every parser exception, which the model
renders as `none` — the Lean function is total by construction. -/
def parse_dt (now : PyDatetime) (text : Option String) :
    Option PyDatetime × Option PyDatetime :=
  ((parseSegments now text).1.map fixStart, (parseSegments now text).2.map fixEnd)

/-! ### Event records, deduplication (`scrape_listings`, lines 170–176)
and the recency filter (`main`, lines 253–259) -/

/-- One extracted event dictionary, as appended by `scrape_listings`
(lines 164–169); `description` is added later by `enrich_from_detail`. -/
structure EventRec where
  title : Option String
  link : Option String
  date_text : Option String
  location : Option String
  description : Option String
deriving DecidableEq

/-- `e.get("link") or e.get("title")` (line 173): Python `or` with
string truthiness — the link when it is a non-empty string, otherwise
the title when that is non-empty, otherwise falsy (`none`). -/
def eventKey (e : EventRec) : Option String :=
  match pyTruthy e.link with
  | some l => some l
  | none => pyTruthy e.title

/-- The dedup loop of `scrape_listings` (lines 171–175): an
insertion-ordered dictionary keyed by `eventKey`; a record with a
falsy key is never inserted, and only the first record per key is.
`seen` is the set of keys already in the dictionary;
`list(dedup.values())` returns the retained records in first-insertion
order, which is exactly the order produced here. -/
def dedupGo : List EventRec → List String → List EventRec
  | [], _ => []
  | e :: rest, seen =>
    match eventKey e with
    | none => dedupGo rest seen
    | some k =>
      if k ∈ seen then dedupGo rest seen
      else e :: dedupGo rest (k :: seen)

/-- Lines 170–176 of `scrape_listings`: deduplicate the concatenated
record list. -/
def dedupEvents (l : List EventRec) : List EventRec :=
  dedupGo l []

/-- The positional reading of the dedup contract: position `j`
survives exactly when its record has a truthy key that no earlier
record (kept or not) also has. -/
def firstKeep (l : List EventRec) (j : Nat) : Option EventRec :=
  match l[j]? with
  | none => none
  | some e =>
    match eventKey e with
    | none => none
    | some k => if k ∈ (l.take j).filterMap eventKey then none else some e

/-- The record list the positional reading retains, in encounter
order. -/
def posSpec (l : List EventRec) : List EventRec :=
  (List.range l.length).filterMap (firstKeep l)

/-- The membership test of `main`'s recency filter (line 258):
`not start or start.date() >= today - timedelta(days=7)`, where
`today = TZ.localize(datetime.now()).date()` and Python date order and
`timedelta` subtraction are ordinal order and subtraction. -/
def keepRecentEvent (now : PyDatetime) (e : EventRec) : Bool :=
  match (parse_dt now e.date_text).1 with
  | none => true
  | some s => decide (now.date.toordinal - 7 ≤ s.date.toordinal)

/-- Lines 254–259 of `main`: keep the enriched records that pass the
recency test. -/
def filterRecent (now : PyDatetime) (l : List EventRec) : List EventRec :=
  l.filter (keepRecentEvent now)

/-! ### The ICS serializer (`build_ics`, lines 201–242) -/

/-- `BASE_URL` with its default value (line 30). -/
def BASE_URL : String := "https://www.eyeofriyadh.com/events/"

/-- Left-pad the decimal digits of `n` with zeros to width `w`
(Python's `%02d`-style formatting inside `strftime`). -/
def padNum (w n : Nat) : String :=
  let s := toString n
  (List.replicate (w - s.length) '0').asString ++ s

/-- `dt.strftime("%Y%m%dT%H%M%S")` (CPython zero-pads `%Y` to four
digits); the model's dates all have positive years. -/
def formatCompact (dt : PyDatetime) : String :=
  padNum 4 dt.year.toNat ++ padNum 2 dt.month ++ padNum 2 dt.day ++ "T" ++
  padNum 2 dt.hour ++ padNum 2 dt.minute ++ padNum 2 dt.second

/-- `start.isoformat()` for a pytz Asia/Riyadh-aware datetime with zero
microseconds: `YYYY-MM-DDTHH:MM:SS+03:00`. -/
def isoformatRiyadh (dt : PyDatetime) : String :=
  padNum 4 dt.year.toNat ++ "-" ++ padNum 2 dt.month ++ "-" ++ padNum 2 dt.day ++ "T" ++
  padNum 2 dt.hour ++ ":" ++ padNum 2 dt.minute ++ ":" ++ padNum 2 dt.second ++ "+03:00"

/-- `to_uid` (lines 198–199).  `hashlib.md5` is an external primitive;
the serializer model is parametric in the hex-digest function
`md5hex`, which no claim interprets. -/
def to_uid (md5hex : String → String) (s : String) : String :=
  md5hex s ++ "@eyeofriyadh"

/-- Lines 214–217 of `build_ics`: the start used for serialization —
the parsed start, or today at 09:00 (`TZ.localize(datetime.now())
.replace(hour=9, minute=0)`, which keeps the current seconds) when no
start is parseable.  Total: never `none`. -/
def eventStart (now : PyDatetime) (ev : EventRec) : PyDatetime :=
  ((parse_dt now ev.date_text).1).getD { now with hour := 9, minute := 0 }

/-- Lines 218–220 of `build_ics`: the end used for serialization — the
parsed end, or `start + timedelta(hours=8)` when no end is parseable.
Total: never `none`. -/
def eventEnd (now : PyDatetime) (ev : EventRec) : PyDatetime :=
  ((parse_dt now ev.date_text).2).getD ((eventStart now ev).addHours 8)

/-- The ten lines of one `VEVENT` block (lines 229–240). -/
def eventLines (md5hex : String → String) (nowUtc now : PyDatetime)
    (ev : EventRec) : List String :=
  let title := normalize_whitespace ((pyTruthy ev.title).getD "Untitled Event")
  let link := (pyTruthy ev.link).getD BASE_URL
  let start := eventStart now ev
  let endv := eventEnd now ev
  let uid := to_uid md5hex (title ++ "|" ++ link ++ "|" ++ isoformatRiyadh start)
  let descParts :=
    match pyTruthy ev.description with
    | some d => [d, "More info: " ++ link]
    | none => ["More info: " ++ link]
  let desc := normalize_whitespace (pyJoin " " descParts)
  let location := normalize_whitespace ((pyTruthy ev.location).getD "Riyadh, Saudi Arabia")
  ["BEGIN:VEVENT",
   "UID:" ++ uid,
   "DTSTAMP:" ++ formatCompact nowUtc ++ "Z",
   "SUMMARY:" ++ title,
   "DTSTART;TZID=Asia/Riyadh:" ++ formatCompact start,
   "DTEND;TZID=Asia/Riyadh:" ++ formatCompact endv,
   "LOCATION:" ++ location,
   "DESCRIPTION:" ++ pyReplace (pyReplace desc "\\n" " ") "\n" " ",
   "URL:" ++ link,
   "END:VEVENT"]

/-- The full line list of the calendar: the five header lines
(lines 203–209), the event blocks in order, and the closing tag
(line 241). -/
def icsLines (md5hex : String → String) (nowUtc now : PyDatetime)
    (events : List EventRec) : List String :=
  (["BEGIN:VCALENDAR", "VERSION:2.0", "PRODID:-//EyeOfRiyadh ICS//EN",
    "CALSCALE:GREGORIAN", "METHOD:PUBLISH"] ++
   (events.map (eventLines md5hex nowUtc now)).flatten) ++ ["END:VCALENDAR"]

/-- `build_ics(events)` (lines 201–242): `"\r\n".join(lines)` — the
lines are *joined*, not terminated, by CRLF.  `nowUtc` is
`datetime.utcnow()` (the `DTSTAMP` clock), `now` the local clock used
by `parse_dt` and the start/end fallbacks. -/
def build_ics (md5hex : String → String) (nowUtc now : PyDatetime)
    (events : List EventRec) : String :=
  pyJoin "\r\n" (icsLines md5hex nowUtc now events)

/-! ### Helper lemmas -/

/-- Every valid Gregorian month has at least 28 days. -/
theorem daysInMonth_ge_28 (y : Int) (m : Nat) (h1 : 1 ≤ m) (h2 : m ≤ 12) :
    28 ≤ daysInMonth y m := by
  interval_cases m <;> (simp [daysInMonth]; try split) <;> omega

/-- Unpacked form of `PyDatetime.valid`. -/
theorem valid_iff (dt : PyDatetime) :
    dt.valid = true ↔
      1 ≤ dt.year ∧ dt.year ≤ 9999 ∧ 1 ≤ dt.month ∧ dt.month ≤ 12 ∧
      1 ≤ dt.day ∧ dt.day ≤ daysInMonth dt.year dt.month ∧
      dt.hour ≤ 23 ∧ dt.minute ≤ 59 ∧ dt.second ≤ 59 := by
  simp only [PyDatetime.valid, Bool.and_eq_true, decide_eq_true_eq]
  tauto

/-! ### C2 -/

/-- C2: `parse_dt` is total — it is a Lean function, so by construction
it returns a pair for every input and never raises (the Python version
wraps both parser calls in `try/except`) — and on `None` or the empty
string it short-circuits to `(None, None)` (line 85: `if not text`). -/
theorem parse_dt_none_empty (now : PyDatetime) :
    parse_dt now none = (none, none) ∧ parse_dt now (some "") = (none, none) :=
  ⟨rfl, rfl⟩

/-! ### C5 -/

/-- C5: midnight coercion in `parse_dt` (lines 104–110).  `parse_dt`
is the segment parse followed by the coercions; a start with
time-of-day exactly 00:00 becomes 09:00, an end with time-of-day
exactly 00:00 becomes 18:00, and any other time-of-day is left
unchanged. -/
theorem parse_dt_midnight_coercion (now : PyDatetime) (text : Option String)
    (dt : PyDatetime) :
    parse_dt now text =
      ((parseSegments now text).1.map fixStart, (parseSegments now text).2.map fixEnd) ∧
    (dt.hour = 0 ∧ dt.minute = 0 →
      fixStart dt = { dt with hour := 9, minute := 0 } ∧
      fixEnd dt = { dt with hour := 18, minute := 0 }) ∧
    (¬(dt.hour = 0 ∧ dt.minute = 0) → fixStart dt = dt ∧ fixEnd dt = dt) := by
  refine ⟨rfl, ?_, ?_⟩
  · rintro ⟨h1, h2⟩
    exact ⟨by simp [fixStart, h1, h2], by simp [fixEnd, h1, h2]⟩
  · intro h
    by_cases h1 : dt.hour = 0
    · by_cases h2 : dt.minute = 0
      · exact absurd ⟨h1, h2⟩ h
      · exact ⟨by simp [fixStart, h2], by simp [fixEnd, h2]⟩
    · exact ⟨by simp [fixStart, h1], by simp [fixEnd, h1]⟩

/-- Witness for C5 at concrete times: 00:00 is coerced (start to
09:00, end to 18:00) and 14:30 is untouched. -/
theorem parse_dt_midnight_coercion_witness :
    fixStart ⟨2026, 1, 12, 0, 0, 0⟩ = ⟨2026, 1, 12, 9, 0, 0⟩ ∧
    fixEnd ⟨2026, 1, 12, 0, 0, 0⟩ = ⟨2026, 1, 12, 18, 0, 0⟩ ∧
    fixStart ⟨2026, 1, 12, 14, 30, 0⟩ = ⟨2026, 1, 12, 14, 30, 0⟩ :=
  ⟨((parse_dt_midnight_coercion ⟨2026, 1, 12, 0, 0, 0⟩ none ⟨2026, 1, 12, 0, 0, 0⟩).2.1 ⟨rfl, rfl⟩).1,
   ((parse_dt_midnight_coercion ⟨2026, 1, 12, 0, 0, 0⟩ none ⟨2026, 1, 12, 0, 0, 0⟩).2.1 ⟨rfl, rfl⟩).2,
   ((parse_dt_midnight_coercion ⟨2026, 1, 12, 0, 0, 0⟩ none ⟨2026, 1, 12, 14, 30, 0⟩).2.2 (by simp)).1⟩

/-! ### C6 -/

/-- C6: the serialized start and end are never null — `eventStart` and
`eventEnd` are total functions into `PyDatetime` — and the fallbacks of
lines 216–220 apply: an unparseable start becomes the current date at
09:00 (seconds kept, as `replace(hour=9, minute=0)` does), and an
unparseable end becomes `start + timedelta(hours=8)`. -/
theorem build_ics_start_end_defaults (ev : EventRec) (now : PyDatetime) :
    ((parse_dt now ev.date_text).1 = none →
      eventStart now ev = { now with hour := 9, minute := 0 }) ∧
    ((parse_dt now ev.date_text).2 = none →
      eventEnd now ev = (eventStart now ev).addHours 8) := by
  constructor
  · intro h; simp [eventStart, h]
  · intro h; simp [eventEnd, h]

/-- Witness for C6: a record with no date text at a concrete current
time gets start = today 09:00 (current seconds kept) and end = start
plus eight hours. -/
theorem build_ics_start_end_defaults_witness :
    eventStart ⟨2025, 10, 7, 13, 37, 45⟩ ⟨some "T", some "L", none, none, none⟩ =
      ⟨2025, 10, 7, 9, 0, 45⟩ ∧
    eventEnd ⟨2025, 10, 7, 13, 37, 45⟩ ⟨some "T", some "L", none, none, none⟩ =
      PyDatetime.addHours ⟨2025, 10, 7, 9, 0, 45⟩ 8 :=
  ⟨(build_ics_start_end_defaults ⟨some "T", some "L", none, none, none⟩ ⟨2025, 10, 7, 13, 37, 45⟩).1 rfl,
   (build_ics_start_end_defaults ⟨some "T", some "L", none, none, none⟩ ⟨2025, 10, 7, 13, 37, 45⟩).2 rfl⟩

/-! ### C3 -/

/-- C3 (code bug): the split pattern of line 90 is the character class
`[–\-to]+`, not the alternation `–|-|to`, so the letters `t`/`o`
inside a month name do cause splits and the split can return more than
two segments: `"12 October 2026"` splits at the `O` and at `to` of
`October` into three segments, and `parse_dt` consequently reads the
event as day 12 of the *current* month with no end. -/
theorem range_split_character_class_bug :
    pySplitRange (normalize_whitespace "12 October 2026") = ["12", "c", "ber 2026"] ∧
    2 < (pySplitRange (normalize_whitespace "12 October 2026")).length ∧
    parse_dt ⟨2025, 10, 7, 13, 37, 45⟩ (some "12 October 2026") =
      (some ⟨2025, 10, 12, 9, 0, 0⟩, none) := by
  refine ⟨by decide, by decide, by decide⟩

/-! ### C1 -/

/-- C1 is false on the code: for `"12-15 Jan 2026"` the first split
segment is the bare `"12"`, which dateutil resolves against the
*current-date* default, and the second segment inherits the (09:00)
time of the first rather than 18:00.  At the concrete current time
2025-10-07T13:37:45 Riyadh the result is neither the claimed pair nor
equal to the result at a different current date. -/
theorem c1_range_parse_counterexample :
    parse_dt ⟨2025, 10, 7, 13, 37, 45⟩ (some "12-15 Jan 2026") ≠
      (some ⟨2026, 1, 12, 9, 0, 0⟩, some ⟨2026, 1, 15, 18, 0, 0⟩) ∧
    parse_dt ⟨2025, 10, 7, 13, 37, 45⟩ (some "12-15 Jan 2026") ≠
      parse_dt ⟨2025, 11, 3, 8, 0, 0⟩ (some "12-15 Jan 2026") := by
  refine ⟨by decide, by decide⟩

/-- C1 (amended): for `"12-15 Jan 2026"`, `parse_dt` returns
start = day 12 of the *current* month and year at 09:00 and
end = 2026-01-15 at 09:00 (not 18:00), both Riyadh wall clock; the
start therefore depends on the date at which the parse runs. -/
theorem c1_range_parse_amended (now : PyDatetime) (h : now.valid = true) :
    parse_dt now (some "12-15 Jan 2026") =
      (some ⟨now.year, now.month, 12, 9, 0, 0⟩, some ⟨2026, 1, 15, 9, 0, 0⟩) := by
  have hv := (valid_iff now).mp h
  have hval : (⟨now.year, now.month, 12, 9, 0, 0⟩ : PyDatetime).valid = true := by
    rw [valid_iff]
    dsimp only
    have := daysInMonth_ge_28 now.year now.month hv.2.2.1 hv.2.2.2.1
    refine ⟨hv.1, hv.2.1, hv.2.2.1, hv.2.2.2.1, by omega, by omega, by omega, by omega, by omega⟩
  have e0 : parseSegments now (some "12-15 Jan 2026") =
      (pyParse "12" (defaultStart now),
       pyParse "15 Jan 2026" ((pyParse "12" (defaultStart now)).getD now)) := rfl
  have e1 : pyParse "12" (defaultStart now) = some ⟨now.year, now.month, 12, 9, 0, 0⟩ := by
    have : pyParse "12" (defaultStart now) =
        mkValid ⟨now.year, now.month, 12, 9, 0, 0⟩ := rfl
    rw [this, mkValid, hval]
    simp
  show ((parseSegments now (some "12-15 Jan 2026")).1.map fixStart,
        (parseSegments now (some "12-15 Jan 2026")).2.map fixEnd) = _
  rw [e0, e1]
  rfl

/-- Witness for C1 (amended) at the concrete current time
2025-11-03T08:00:00. -/
theorem c1_range_parse_amended_witness :
    parse_dt ⟨2025, 11, 3, 8, 0, 0⟩ (some "12-15 Jan 2026") =
      (some ⟨2025, 11, 12, 9, 0, 0⟩, some ⟨2026, 1, 15, 9, 0, 0⟩) :=
  c1_range_parse_amended ⟨2025, 11, 3, 8, 0, 0⟩ (by decide)

/-! ### C4 -/

/-- C4 is false on the code: line 100 parses the second segment with
`default = start or TZ.localize(datetime.now())`, so a failed start
parse does *not* force `end` to `None` — the second segment is parsed
against the plain current datetime.  Concretely, for
`"xyz - 15 Jan 2026"` the start fails and the end still parses. -/
theorem c4_failed_start_counterexample :
    (parse_dt ⟨2025, 10, 7, 13, 37, 45⟩ (some "xyz - 15 Jan 2026")).1 = none ∧
    (parse_dt ⟨2025, 10, 7, 13, 37, 45⟩ (some "xyz - 15 Jan 2026")).2 ≠ none := by
  refine ⟨by decide, by decide⟩

/-- C4 (amended): when the first segment fails to parse, `end` is not
forced to `None`; an existing second segment is still parsed, with the
bare current datetime as its default.  Concretely, for every valid
current time, `"xyz - 15 Jan 2026"` yields start = `None` and a
non-`None` end. -/
theorem c4_failed_start_amended (now : PyDatetime) (h : now.valid = true) :
    (parse_dt now (some "xyz - 15 Jan 2026")).1 = none ∧
    (parse_dt now (some "xyz - 15 Jan 2026")).2 ≠ none := by
  have hv := (valid_iff now).mp h
  have hval : (⟨2026, 1, 15, now.hour, now.minute, now.second⟩ : PyDatetime).valid = true := by
    rw [valid_iff]
    dsimp only
    exact ⟨by decide, by decide, by decide, by decide, by decide, by decide,
           by omega, by omega, by omega⟩
  have e0 : parseSegments now (some "xyz - 15 Jan 2026") =
      (none, pyParse "15 Jan 2026" now) := rfl
  have e1 : pyParse "15 Jan 2026" now =
      mkValid ⟨2026, 1, 15, now.hour, now.minute, now.second⟩ := rfl
  constructor
  · show ((parseSegments now (some "xyz - 15 Jan 2026")).1.map fixStart) = none
    rw [e0]
    rfl
  · show ((parseSegments now (some "xyz - 15 Jan 2026")).2.map fixEnd) ≠ none
    rw [e0, e1, mkValid, hval]
    simp

/-- Witness for C4 (amended) at the concrete current time
2026-03-01T10:30:00. -/
theorem c4_failed_start_amended_witness :
    (parse_dt ⟨2026, 3, 1, 10, 30, 0⟩ (some "xyz - 15 Jan 2026")).1 = none ∧
    (parse_dt ⟨2026, 3, 1, 10, 30, 0⟩ (some "xyz - 15 Jan 2026")).2 ≠ none :=
  c4_failed_start_amended ⟨2026, 3, 1, 10, 30, 0⟩ (by decide)

/-! ### C8 -/

/-- C8: the recency filter of `main` (lines 253–259).  A record whose
parsed start falls exactly on today − 7 days (Python date order and
subtraction are ordinal arithmetic) is retained, one on or before
today − 8 days is dropped, and a record with no parseable start is
always retained. -/
theorem recency_filter_window (now : PyDatetime) (e : EventRec) :
    ((parse_dt now e.date_text).1 = none → keepRecentEvent now e = true) ∧
    (∀ s, (parse_dt now e.date_text).1 = some s →
      s.date.toordinal = now.date.toordinal - 7 → keepRecentEvent now e = true) ∧
    (∀ s, (parse_dt now e.date_text).1 = some s →
      s.date.toordinal ≤ now.date.toordinal - 8 → keepRecentEvent now e = false) := by
  refine ⟨?_, ?_, ?_⟩
  · intro h
    simp [keepRecentEvent, h]
  · intro s h h7
    simp only [keepRecentEvent, h]
    rw [decide_eq_true_eq]
    omega
  · intro s h h8
    simp only [keepRecentEvent, h]
    rw [decide_eq_false_iff_not]
    omega

/-- Witness for C8 with today = 2026-01-20: a record dated
2026-01-13 (seven days back) is kept, one dated 2026-01-12 (eight days
back) is dropped, and one with no date text is kept. -/
theorem recency_filter_window_witness :
    keepRecentEvent ⟨2026, 1, 20, 12, 0, 0⟩ ⟨some "A", some "L1", some "13 Jan 2026", none, none⟩ = true ∧
    keepRecentEvent ⟨2026, 1, 20, 12, 0, 0⟩ ⟨some "B", some "L2", some "12 Jan 2026", none, none⟩ = false ∧
    keepRecentEvent ⟨2026, 1, 20, 12, 0, 0⟩ ⟨some "C", some "L3", none, none, none⟩ = true :=
  ⟨(recency_filter_window ⟨2026, 1, 20, 12, 0, 0⟩
      ⟨some "A", some "L1", some "13 Jan 2026", none, none⟩).2.1
      ⟨2026, 1, 13, 9, 0, 0⟩ (by decide) (by decide),
   (recency_filter_window ⟨2026, 1, 20, 12, 0, 0⟩
      ⟨some "B", some "L2", some "12 Jan 2026", none, none⟩).2.2
      ⟨2026, 1, 12, 9, 0, 0⟩ (by decide) (by decide),
   (recency_filter_window ⟨2026, 1, 20, 12, 0, 0⟩
      ⟨some "C", some "L3", none, none, none⟩).1 rfl⟩

/-! ### C9 -/

/-- Every record the dedup loop keeps has a truthy key. -/
theorem eventKey_isSome_of_mem_dedupGo :
    ∀ (l : List EventRec) (seen : List String) (e : EventRec),
      e ∈ dedupGo l seen → eventKey e ≠ none := by
  intro l
  induction l with
  | nil => intro seen e h; cases h
  | cons e0 rest ih =>
    intro seen e h
    cases hk : eventKey e0 with
    | none =>
      simp only [dedupGo, hk] at h
      exact ih seen e h
    | some k =>
      simp only [dedupGo, hk] at h
      by_cases hmem : k ∈ seen
      · rw [if_pos hmem] at h; exact ih seen e h
      · rw [if_neg hmem] at h
        rcases List.mem_cons.mp h with h1 | h2
        · rw [h1, hk]; simp
        · exact ih (k :: seen) e h2

/-- C9 is false on the code: the dedup block of `scrape_listings`
(lines 170–176) keys a record by `link or title`, so a record with a
non-empty title and *no* link is retained — the aggregated set does not
guarantee a resolvable link.  Concrete counterexample: a single
record with a title and `link = None` survives deduplication. -/
theorem c9_retention_counterexample :
    dedupEvents [⟨some "Riyadh Expo", none, none, none, none⟩] =
      [⟨some "Riyadh Expo", none, none, none, none⟩] ∧
    (⟨some "Riyadh Expo", none, none, none, none⟩ : EventRec).link = none := by
  refine ⟨by decide, rfl⟩

/-- C9 (amended): every record retained by the dedup block has a
truthy identity key — a non-empty link *or* a non-empty title; a
record with neither is discarded.  (Both fields together are not
guaranteed; serialization later substitutes defaults, lines 212–213.) -/
theorem dedup_retention_key_amended (l : List EventRec) (e : EventRec)
    (h : e ∈ dedupEvents l) :
    pyTruthy e.link ≠ none ∨ pyTruthy e.title ≠ none := by
  have hk := eventKey_isSome_of_mem_dedupGo l [] e h
  by_cases hl : pyTruthy e.link = none
  · refine Or.inr ?_
    have he : eventKey e = pyTruthy e.title := by unfold eventKey; rw [hl]
    rw [he] at hk
    exact hk
  · exact Or.inl hl

/-- Witness for C9 (amended): a linked record retained from a
singleton list has a truthy key. -/
theorem dedup_retention_key_amended_witness :
    pyTruthy (⟨some "T", some "http://a", none, none, none⟩ : EventRec).link ≠ none ∨
    pyTruthy (⟨some "T", some "http://a", none, none, none⟩ : EventRec).title ≠ none :=
  dedup_retention_key_amended [⟨some "T", some "http://a", none, none, none⟩]
    ⟨some "T", some "http://a", none, none, none⟩ (by decide)

/-! ### C7 -/

/-- `firstKeep` relative to a set `seen` of already-excluded keys (the
dictionary contents when the loop reaches the current sublist); the
induction generalisation of `firstKeep`. -/
def firstKeepSeen (l : List EventRec) (seen : List String) (j : Nat) : Option EventRec :=
  match l[j]? with
  | none => none
  | some e =>
    match eventKey e with
    | none => none
    | some k =>
      if k ∈ seen ∨ k ∈ (l.take j).filterMap eventKey then none else some e

/-- `firstKeepSeen` at position 0: kept iff the key is truthy and not
already excluded. -/
theorem firstKeepSeen_zero (e : EventRec) (rest : List EventRec) (seen : List String) :
    firstKeepSeen (e :: rest) seen 0 =
      match eventKey e with
      | none => none
      | some k => if k ∈ seen then none else some e := by
  cases hk : eventKey e <;> simp [firstKeepSeen, hk]

/-- `firstKeepSeen` at a successor position: step over the head,
excluding its key (when truthy) for the tail. -/
theorem firstKeepSeen_succ (e : EventRec) (rest : List EventRec) (seen : List String) (j : Nat) :
    firstKeepSeen (e :: rest) seen (j + 1) =
      match eventKey e with
      | none => firstKeepSeen rest seen j
      | some k0 => firstKeepSeen rest (k0 :: seen) j := by
  cases he : rest[j]? with
  | none => cases hk : eventKey e <;> simp [firstKeepSeen, hk, he]
  | some e' =>
    cases hk : eventKey e with
    | none =>
      cases hke : eventKey e' with
      | none => simp [firstKeepSeen, hk, hke, he]
      | some k =>
        simp [firstKeepSeen, hk, hke, he, List.take_succ_cons, List.filterMap_cons]
    | some k0 =>
      cases hke : eventKey e' with
      | none => simp [firstKeepSeen, hk, hke, he]
      | some k =>
        simp only [firstKeepSeen, List.getElem?_cons_succ, he, List.take_succ_cons,
          List.filterMap_cons, hk, hke]
        by_cases h1 : k = k0 <;> by_cases h2 : k ∈ seen <;>
          by_cases h3 : k ∈ (rest.take j).filterMap eventKey <;>
          simp [h1, h2, h3, List.mem_cons]

/-- Excluding a key that is already excluded changes nothing. -/
theorem firstKeepSeen_seen_mem {k0 : String} {seen : List String} (hmem : k0 ∈ seen) :
    ∀ (l : List EventRec) (j : Nat),
      firstKeepSeen l (k0 :: seen) j = firstKeepSeen l seen j := by
  intro l j
  cases he : l[j]? with
  | none => simp [firstKeepSeen, he]
  | some e =>
    cases hk : eventKey e with
    | none => simp [firstKeepSeen, he, hk]
    | some k =>
      simp only [firstKeepSeen, he, hk]
      have hiff : (k ∈ k0 :: seen ∨ k ∈ (l.take j).filterMap eventKey) ↔
          (k ∈ seen ∨ k ∈ (l.take j).filterMap eventKey) := by
        constructor
        · rintro (hc | hc)
          · rcases List.mem_cons.mp hc with rfl | hc2
            · exact Or.inl hmem
            · exact Or.inl hc2
          · exact Or.inr hc
        · rintro (hc | hc)
          · exact Or.inl (List.mem_cons_of_mem _ hc)
          · exact Or.inr hc
      rw [if_congr hiff rfl rfl]

/-- The dedup loop equals the positional filter, for any starting set
of excluded keys. -/
theorem dedupGo_eq_firstKeepSeen :
    ∀ (l : List EventRec) (seen : List String),
      dedupGo l seen = (List.range l.length).filterMap (firstKeepSeen l seen) := by
  intro l
  induction l with
  | nil => intro seen; simp [dedupGo]
  | cons e rest ih =>
    intro seen
    rw [List.length_cons, List.range_succ_eq_map, List.filterMap_cons, List.filterMap_map]
    cases hk : eventKey e with
    | none =>
      have h0 : firstKeepSeen (e :: rest) seen 0 = none := by
        rw [firstKeepSeen_zero, hk]
      have hs : ∀ j ∈ List.range rest.length,
          (firstKeepSeen (e :: rest) seen ∘ Nat.succ) j = firstKeepSeen rest seen j := by
        intro j _
        show firstKeepSeen (e :: rest) seen (j + 1) = _
        rw [firstKeepSeen_succ, hk]
      simp only [h0]
      rw [List.filterMap_congr hs, ← ih seen]
      simp only [dedupGo, hk]
    | some k =>
      have h0 : firstKeepSeen (e :: rest) seen 0 = if k ∈ seen then none else some e := by
        rw [firstKeepSeen_zero, hk]
      have hs : ∀ j ∈ List.range rest.length,
          (firstKeepSeen (e :: rest) seen ∘ Nat.succ) j = firstKeepSeen rest (k :: seen) j := by
        intro j _
        show firstKeepSeen (e :: rest) seen (j + 1) = _
        rw [firstKeepSeen_succ, hk]
      rw [List.filterMap_congr hs]
      by_cases hmem : k ∈ seen
      · rw [h0, if_pos hmem]
        have hdup : ∀ j ∈ List.range rest.length,
            firstKeepSeen rest (k :: seen) j = firstKeepSeen rest seen j :=
          fun j _ => firstKeepSeen_seen_mem hmem rest j
        rw [List.filterMap_congr hdup, ← ih seen]
        simp only [dedupGo, hk, if_pos hmem]
      · rw [h0, if_neg hmem, ← ih (k :: seen)]
        simp only [dedupGo, hk, if_neg hmem]

/-- C7: deduplication keeps exactly the first record per identity key.
`dedupEvents` (the dedup block of `scrape_listings`, lines 170–176)
equals the positional filter `posSpec`: iterating in encounter order,
a record is retained iff its key (link, else title) is truthy and no
earlier record has the same key; every later record sharing a key —
in particular a later record with the same link — is discarded, and
order is preserved. -/
theorem dedup_first_per_key (l : List EventRec) :
    dedupEvents l = posSpec l := by
  rw [dedupEvents, dedupGo_eq_firstKeepSeen, posSpec]
  apply List.filterMap_congr
  intro j _
  cases he : l[j]? with
  | none => simp [firstKeepSeen, firstKeep, he]
  | some e =>
    cases hk : eventKey e with
    | none => simp [firstKeepSeen, firstKeep, he, hk]
    | some k => simp [firstKeepSeen, firstKeep, he, hk]

/-! ### C10 -/

/-- `pyJoin` over a cons with a non-empty tail prepends head and
separator. -/
theorem pyJoin_cons_ne_nil (sep a : String) {l : List String} (h : l ≠ []) :
    pyJoin sep (a :: l) = a ++ sep ++ pyJoin sep l := by
  cases l with
  | nil => exact absurd rfl h
  | cons y rest => rfl

/-- The last character of a join whose final element ends in `c` is
`c`. -/
theorem pyJoin_last_char (L : List String) (sep x : String) (c : Char)
    (h : x.data.getLast? = some c) :
    (pyJoin sep (L ++ [x])).data.getLast? = some c := by
  induction L with
  | nil => simpa using h
  | cons hd tl ih =>
    rw [List.cons_append, pyJoin_cons_ne_nil sep hd (by simp), String.data_append,
      List.getLast?_append, ih]
    rfl

/-- C10 is false on the code: line 242 is `"\r\n".join(lines)`, which
*separates* the lines by CRLF; the final `END:VCALENDAR` line is not
terminated.  For an empty event list the whole document is the header
joined to the closing tag with no trailing CRLF — its last character
is `R`, not the `\n` every CRLF-terminated document must end with. -/
theorem c10_crlf_counterexample :
    build_ics (fun _ => "d41d8cd98f00b204e9800998ecf8427e")
        ⟨2026, 1, 20, 9, 0, 0⟩ ⟨2026, 1, 20, 12, 0, 0⟩ [] =
      "BEGIN:VCALENDAR\r\nVERSION:2.0\r\nPRODID:-//EyeOfRiyadh ICS//EN\r\nCALSCALE:GREGORIAN\r\nMETHOD:PUBLISH\r\nEND:VCALENDAR" ∧
    (build_ics (fun _ => "d41d8cd98f00b204e9800998ecf8427e")
        ⟨2026, 1, 20, 9, 0, 0⟩ ⟨2026, 1, 20, 12, 0, 0⟩ []).data.getLast? ≠ some '\n' := by
  refine ⟨by decide, by decide⟩

/-- C10 (amended): the ICS document's lines are *joined* by CRLF —
every line except the last is followed by CRLF — and the document ends
with the `R` of the unterminated final `END:VCALENDAR` line, for every
event list, hash function and pair of clocks. -/
theorem build_ics_crlf_joined (md5hex : String → String) (nowUtc now : PyDatetime)
    (events : List EventRec) :
    build_ics md5hex nowUtc now events =
      pyJoin "\r\n" (icsLines md5hex nowUtc now events) ∧
    (build_ics md5hex nowUtc now events).data.getLast? = some 'R' := by
  refine ⟨rfl, ?_⟩
  rw [build_ics, icsLines]
  exact pyJoin_last_char _ "\r\n" "END:VCALENDAR" 'R' (by decide)
